import Mathlib

/-!
Verification development for the NestEventsManager repository.

The repository exposes a single `events` resource.  Its behaviour is spread
over two source artefacts:

* `src/create-event.dto.ts` — the `CreateEventDto` class together with its
  class-validator decorators (`@Length`, `@IsString`, `@IsDateString`, with
  validation groups `create` / `update` on the `address` field);
* `EventsController` — the CRUD handlers `findAll`, `findOne`, `create`,
  `update`, `remove` delegating to a TypeORM `Repository<Event>`.

The embedding below translates those handlers and the validator metadata into
pure Lean functions over an explicit store state.  The TypeORM repository is
modelled as a list of rows plus an auto-increment counter, matching the
documented auto-increment generated primary key of the `Event`
entity.
-/

/-- A JavaScript `Date` value as produced by `new Date(isoString)`.  The
embedding keeps the ISO string it was parsed from; all the program does with
the value is store and return it. -/
structure JSDate where
  iso : String
deriving DecidableEq

/-- Embedding of `new Date(s)` applied to an ISO date-time string. -/
def parseDate (s : String) : JSDate := ⟨s⟩

/-- Modelled from the spec: the class-validator / validator.js `isISO8601`
check behind the `@IsDateString()` decorator (library code, not part of this
repository).  Simplified to the calendar-date form used by the examples of the
repository: `YYYY-MM-DD`, optionally followed by a `T`-separated time part. -/
def isISO8601String (s : String) : Bool :=
  match s.toList with
  | y1 :: y2 :: y3 :: y4 :: '-' :: m1 :: m2 :: '-' :: d1 :: d2 :: rest =>
      ([y1, y2, y3, y4, m1, m2, d1, d2].all Char.isDigit) &&
      (let m := (m1.toNat - 48) * 10 + (m2.toNat - 48)
       1 ≤ m && m ≤ 12) &&
      (let d := (d1.toNat - 48) * 10 + (d2.toNat - 48)
       1 ≤ d && d ≤ 31) &&
      (rest.isEmpty || rest.headI = 'T')
  | _ => false

/-- The kinds of field checks used by the decorators of `CreateEventDto`. -/
inductive FieldCheck where
  | isString
  | isDateString
  | length (min max : Nat)
deriving DecidableEq

/-- One class-validator decorator instance: the property it is attached to,
the check it performs, its validation groups (empty = no groups option), and
an optional custom error message. -/
structure VRule where
  property : String
  check : FieldCheck
  groups : List String
  message : Option String
deriving DecidableEq

/-- Whether a check accepts a string value (class-validator semantics:
`@IsString` holds for any string; `@Length(min,max)` bounds the length;
`@IsDateString` requires an ISO 8601 date string). -/
def checkOk : FieldCheck → String → Bool
  | .isString, _ => true
  | .isDateString, s => isISO8601String s
  | .length mn mx, s => decide (mn ≤ s.length) && decide (s.length ≤ mx)

/-- The default error message class-validator produces for a failed check. -/
def defaultMessage (property : String) (c : FieldCheck) (v : String) : String :=
  match c with
  | .isString => property ++ " must be a string"
  | .isDateString => property ++ " must be a valid ISO 8601 date string"
  | .length mn mx =>
      if v.length < mn then
        property ++ " must be longer than or equal to " ++ toString mn ++ " characters"
      else
        property ++ " must be shorter than or equal to " ++ toString mx ++ " characters"

/-- The message reported for a violated rule: the custom message of the decorator
when one was configured, the library default otherwise. -/
def messageOf (r : VRule) (v : String) : String :=
  match r.message with
  | some m => m
  | none => defaultMessage r.property r.check v

/-- The decorator metadata of `CreateEventDto`, in source order
(`src/create-event.dto.ts` lines 3–17). -/
def createEventRules : List VRule :=
  [ ⟨"name", .length 5 255, [], some ("name must have a length between [5,25]")⟩,
    ⟨"description", .isString, [], none⟩,
    ⟨"description", .length 5 255, [], none⟩,
    ⟨"when", .isDateString, [], none⟩,
    ⟨"address", .length 5 255, ["create"], none⟩,
    ⟨"address", .length 10 20, ["update"], none⟩ ]

/-- Whether a rule applies when validating with validation group `g`.
class-validator default (`strictGroups: false`): rules without a groups
option always apply; rules with groups apply when the requested group is
among them. -/
def appliesTo (g : String) (r : VRule) : Bool :=
  r.groups.isEmpty || r.groups.contains g

/-- Run the applicable rules of `CreateEventDto` for group `g` over a payload
given as a property lookup (absent properties are skipped, which is how the
`@IsOptional()` added by `PartialType` behaves on the update DTO; on a create
payload every property is present).  Returns the flattened list of error
messages, one per violated rule, as `ValidationPipe` reports them. -/
def validateProps (g : String) (get : String → Option String) : List String :=
  (createEventRules.filter (appliesTo g)).filterMap fun r =>
    match get r.property with
    | none => none
    | some v => if checkOk r.check v then none else some (messageOf r v)

/-- The violated rules themselves (paired with the offending value), before
flattening to messages. -/
def violations (g : String) (get : String → Option String) : List (VRule × String) :=
  (createEventRules.filter (appliesTo g)).filterMap fun r =>
    match get r.property with
    | none => none
    | some v => if checkOk r.check v then none else some (r, v)

/-- `CreateEventDto` (src/create-event.dto.ts): the POST body shape. -/
structure CreateEventDto where
  name : String
  description : String
  when : String
  address : String
deriving DecidableEq

/-- Property lookup on a create payload: every field is present. -/
def CreateEventDto.get (d : CreateEventDto) : String → Option String := fun p =>
  if p = "name" then some d.name
  else if p = "description" then some d.description
  else if p = "when" then some d.when
  else if p = "address" then some d.address
  else none

/-- Modelled from the spec: `UpdateEventDto` (file `update-event.dto.ts`, not
under `src/`) is `PartialType(CreateEventDto)` — the same four fields, each
optional, inheriting the validation metadata with `@IsOptional()` added. -/
structure UpdateEventDto where
  name : Option String
  description : Option String
  when : Option String
  address : Option String
deriving DecidableEq

/-- Property lookup on an update payload: only supplied fields are present. -/
def UpdateEventDto.get (d : UpdateEventDto) : String → Option String := fun p =>
  if p = "name" then d.name
  else if p = "description" then d.description
  else if p = "when" then d.when
  else if p = "address" then d.address
  else none

/-- Create-group validation, as run by
the ValidationPipe instantiated with the create group on the POST body. -/
def validateCreate (d : CreateEventDto) : List String :=
  validateProps ("create") d.get

/-- Update-group validation, as run by
the ValidationPipe instantiated with the update group on the PATCH body. -/
def validateUpdate (d : UpdateEventDto) : List String :=
  validateProps ("update") d.get

/-- Modelled from the spec: one row of the `event` table (file
`event.entity.ts`, not under `src/`).  Columns match the Event attributes;
the identifier is the generated primary key, the remaining columns hold the
value written by the last save (absent/null when a save supplied none). -/
structure EventRow where
  id : Nat
  name : Option String
  description : Option String
  when : Option JSDate
  address : Option String
deriving DecidableEq

/-- Modelled from the spec: the state of the TypeORM repository — the rows of
the `event` table plus the auto-increment counter of the generated primary
key. -/
structure EventStore where
  rows : List EventRow
  nextId : Nat
deriving DecidableEq

/-- `repository.findOneBy({ id })`: the first row whose id matches, if any. -/
def findRow (st : EventStore) (i : Nat) : Option EventRow :=
  st.rows.find? fun r => r.id == i

/-- The object passed to `repository.save(...)`: field values present on the
object literal; `id` present only when it came from spreading an existing
row. -/
structure DraftEvent where
  id : Option Nat
  name : Option String
  description : Option String
  when : Option JSDate
  address : Option String
deriving DecidableEq

/-- The table row a draft is written as, once its identifier is settled. -/
def rowOfDraft (i : Nat) (d : DraftEvent) : EventRow :=
  ⟨i, d.name, d.description, d.when, d.address⟩

/-- `repository.save(draft)`: with no id, inserts a new row under the next
generated identifier; with an id, writes the row with that id (update when it
exists, insert otherwise).  Returns the saved row, as `.save()` returns the
created/updated record. -/
def saveRow (st : EventStore) (d : DraftEvent) : EventStore × EventRow :=
  match d.id with
  | none =>
      let row := rowOfDraft st.nextId d
      (⟨st.rows ++ [row], st.nextId + 1⟩, row)
  | some i =>
      let row := rowOfDraft i d
      if st.rows.any (fun r => r.id == i) then
        (⟨st.rows.map (fun r => if r.id == i then row else r), st.nextId⟩, row)
      else
        (⟨st.rows ++ [row], st.nextId⟩, row)

/-- `repository.remove(row)`: deletes the row with that primary key. -/
def removeRow (st : EventStore) (row : EventRow) : EventStore :=
  ⟨st.rows.filter (fun r => !(r.id == row.id)), st.nextId⟩

/-- The 400-class error body `ValidationPipe` produces on validation
failure. -/
structure BadRequest where
  statusCode : Nat
  message : List String
  error : String
deriving DecidableEq

/-- Builds the standard Bad Request response from the violation messages. -/
def badRequestOf (msgs : List String) : BadRequest :=
  ⟨400, msgs, "Bad Request"⟩

/-- How a PATCH request can fail: rejected by the validation pipe, or by the
`TypeError` raised when `event.when` is read off the `null` returned by
`findOneBy` for a missing id. -/
inductive UpdateError where
  | badRequest (e : BadRequest)
  | nullDeref
deriving DecidableEq

/-- How a DELETE request can fail: `repository.remove(null)` faults when
`findOneBy` found no row. -/
inductive RemoveError where
  | entityMissing
deriving DecidableEq

/-- JS truthiness test `input.when ?` on the optional `when` string. -/
def whenTruthy : Option String → Bool
  | none => false
  | some w => !(w == "")

namespace EventsController

/-- `EventsController.create`: runs create-group validation on the body; on
success saves `{...input, when: new Date(input.when)}` (no id, so a new row
under a generated identifier) and returns the saved row; on failure returns
the 400 response and touches nothing. -/
def create (st : EventStore) (input : CreateEventDto) :
    EventStore × Except BadRequest EventRow :=
  match validateCreate input with
  | [] =>
      let res := saveRow st
        ⟨none, some input.name, some input.description,
         some (parseDate input.when), some input.address⟩
      (res.1, .ok res.2)
  | errs => (st, .error (badRequestOf errs))

/-- `EventsController.findOne`: `repository.findOneBy({ id })`, returning the
row or null. -/
def findOne (st : EventStore) (i : Nat) : Option EventRow :=
  findRow st i

/-- The `updatedEvent` object literal of `EventsController.update` when
`findOneBy` found a row:
`{...event, ...input, when: input.when ? new Date(input.when) : event.when}` —
spreading `input` overwrites exactly the supplied fields, then the explicit
`when` property overwrites again. -/
def updatedEvent (event : EventRow) (input : UpdateEventDto) : DraftEvent :=
  ⟨some event.id,
   match input.name with | some n => some n | none => event.name,
   match input.description with | some d => some d | none => event.description,
   (if whenTruthy input.when then
      match input.when with | some w => some (parseDate w) | none => event.when
    else event.when),
   match input.address with | some a => some a | none => event.address⟩

/-- `EventsController.update`: runs update-group validation; then builds
`{...event, ...input, when: input.when ? new Date(input.when) : event.when}`
from the `findOneBy` result and saves it.  When `findOneBy` returned null,
spreading `null` contributes nothing, and if `input.when` is not truthy,
evaluating `event.when` raises a `TypeError`. -/
def update (st : EventStore) (i : Nat) (input : UpdateEventDto) :
    EventStore × Except UpdateError EventRow :=
  match validateUpdate input with
  | errs@(_ :: _) => (st, .error (.badRequest (badRequestOf errs)))
  | [] =>
      match findRow st i with
      | some e =>
          let res := saveRow st (updatedEvent e input)
          (res.1, .ok res.2)
      | none =>
          if whenTruthy input.when then
            let draft : DraftEvent :=
              ⟨none, input.name, input.description,
               (match input.when with | some w => some (parseDate w) | none => none),
               input.address⟩
            let res := saveRow st draft
            (res.1, .ok res.2)
          else
            (st, .error .nullDeref)

/-- `EventsController.remove`: `findOneBy` then `repository.remove`; the
handler body returns nothing (HTTP 204 No Content). -/
def remove (st : EventStore) (i : Nat) : EventStore × Except RemoveError Unit :=
  match findRow st i with
  | some e => (removeRow st e, .ok ())
  | none => (st, .error .entityMissing)

end EventsController

/-- A sequence of PATCH requests against the same id, each applied to the
store the previous one produced; `none` as soon as one of them fails. -/
def applyUpdates (st : EventStore) (i : Nat) : List UpdateEventDto → Option EventStore
  | [] => some st
  | p :: ps =>
      match EventsController.update st i p with
      | (st', .ok _) => applyUpdates st' i ps
      | (_, .error _) => none

/-- A concrete row used to instantiate the theorems below. -/
def row0 : EventRow :=
  ⟨1, some ("First event"), some ("Event description"), some (parseDate ("2022-02-02")),
   some ("Address 123456")⟩

/-- A concrete one-row store used to instantiate the theorems below. -/
def st0 : EventStore := ⟨[row0], 2⟩

/-! ## Helper lemmas -/

theorem validateCreate_eq_nil_iff (p : CreateEventDto) :
    validateCreate p = [] ↔
      (5 ≤ p.name.length ∧ p.name.length ≤ 255) ∧
      (5 ≤ p.description.length ∧ p.description.length ≤ 255) ∧
      isISO8601String p.when = true ∧
      (5 ≤ p.address.length ∧ p.address.length ≤ 255) := by
  by_cases h1 : 5 ≤ p.name.length ∧ p.name.length ≤ 255 <;>
    by_cases h2 : 5 ≤ p.description.length ∧ p.description.length ≤ 255 <;>
    by_cases h3 : isISO8601String p.when = true <;>
    by_cases h4 : 5 ≤ p.address.length ∧ p.address.length ≤ 255 <;>
    simp [validateCreate, validateProps, createEventRules, appliesTo, CreateEventDto.get,
      List.filter, List.filterMap, checkOk, h1, h2, h3, h4]

theorem validateUpdate_eq_nil_iff (p : UpdateEventDto) :
    validateUpdate p = [] ↔
      (∀ n, p.name = some n → 5 ≤ n.length ∧ n.length ≤ 255) ∧
      (∀ d, p.description = some d → 5 ≤ d.length ∧ d.length ≤ 255) ∧
      (∀ w, p.when = some w → isISO8601String w = true) ∧
      (∀ a, p.address = some a → 10 ≤ a.length ∧ a.length ≤ 20) := by
  obtain ⟨n, d, w, a⟩ := p
  cases n <;> cases d <;> cases w <;> cases a <;>
    simp [validateUpdate, validateProps, createEventRules, appliesTo, UpdateEventDto.get,
      List.filter, List.filterMap, checkOk] <;>
    split_ifs <;> simp_all

theorem validateProps_eq_map_violations (g : String) (get : String → Option String) :
    validateProps g get = (violations g get).map fun rv => messageOf rv.1 rv.2 := by
  unfold validateProps violations
  generalize createEventRules.filter (appliesTo g) = l
  induction l with
  | nil => simp
  | cons r l ih =>
    simp only [List.filterMap_cons]
    cases hg : get r.property with
    | none => simpa using ih
    | some v =>
      by_cases hc : checkOk r.check v <;> simp [hc, ih]

theorem findRow_id_eq {st : EventStore} {i : Nat} {e : EventRow}
    (h : findRow st i = some e) : e.id = i := by
  have := List.find?_some h
  simpa using this

theorem findRow_mem {st : EventStore} {i : Nat} {e : EventRow}
    (h : findRow st i = some e) : e ∈ st.rows :=
  List.mem_of_find?_eq_some h

theorem find?_map_replace (l : List EventRow) (i : Nat) (row : EventRow)
    (hrow : row.id = i) (h : ∃ e, l.find? (fun r => r.id == i) = some e) :
    (l.map fun r => if r.id == i then row else r).find? (fun r => r.id == i) = some row := by
  induction l with
  | nil => simp at h
  | cons a l ih =>
    simp only [List.map_cons]
    by_cases ha : (a.id == i) = true
    · rw [if_pos ha, List.find?_cons]
      simp [hrow]
    · rw [if_neg ha, List.find?_cons]
      have ha' : (a.id == i) = false := by simpa using ha
      rw [ha']
      apply ih
      obtain ⟨e, he⟩ := h
      rw [List.find?_cons, ha'] at he
      exact ⟨e, he⟩

theorem isISO8601String_ne_empty {w : String} (h : isISO8601String w = true) : w ≠ "" := by
  rintro rfl
  exact absurd h (by decide)

theorem update_on_found (st : EventStore) (i : Nat) (p : UpdateEventDto) (e : EventRow)
    (hv : validateUpdate p = []) (hf : findRow st i = some e) :
    EventsController.update st i p =
      (⟨st.rows.map fun r =>
          if r.id == i then rowOfDraft i (EventsController.updatedEvent e p) else r,
        st.nextId⟩,
       .ok (rowOfDraft i (EventsController.updatedEvent e p))) ∧
    findRow (EventsController.update st i p).1 i =
      some (rowOfDraft i (EventsController.updatedEvent e p)) := by
  have hei : e.id = i := findRow_id_eq hf
  subst hei
  have hany : st.rows.any (fun r => r.id == e.id) = true := by
    rw [List.any_eq_true]
    exact ⟨e, findRow_mem hf, by simp⟩
  have h1 : EventsController.update st e.id p =
      (⟨st.rows.map fun r =>
          if r.id == e.id then rowOfDraft e.id (EventsController.updatedEvent e p) else r,
        st.nextId⟩,
       .ok (rowOfDraft e.id (EventsController.updatedEvent e p))) := by
    unfold EventsController.update
    rw [hv, hf]
    simp only [saveRow, EventsController.updatedEvent, hany, if_pos]
  refine ⟨h1, ?_⟩
  rw [h1]
  exact find?_map_replace st.rows e.id _ rfl ⟨e, hf⟩

theorem update_keeps_id {st : EventStore} {i : Nat} {e : EventRow} {p : UpdateEventDto}
    {st' : EventStore} {r : EventRow}
    (hf : findRow st i = some e) (hu : EventsController.update st i p = (st', .ok r)) :
    findRow st' i = some r ∧ r.id = i := by
  cases hv : validateUpdate p with
  | cons m ms =>
    unfold EventsController.update at hu
    rw [hv] at hu
    simp at hu
  | nil =>
    have h := update_on_found st i p e hv hf
    rw [h.1] at hu
    have h2 := h.2
    rw [h.1] at h2
    injection hu with hu1 hu2
    injection hu2 with hu2
    subst hu1
    subst hu2
    exact ⟨h2, rfl⟩

theorem applyUpdates_keeps_id (i : Nat) (ps : List UpdateEventDto) :
    ∀ st e st', findRow st i = some e → applyUpdates st i ps = some st' →
      ∃ e', findRow st' i = some e' ∧ e'.id = i := by
  induction ps with
  | nil =>
    intro st e st' hf h
    simp only [applyUpdates, Option.some.injEq] at h
    subst h
    exact ⟨e, hf, findRow_id_eq hf⟩
  | cons p ps ih =>
    intro st e st' hf h
    simp only [applyUpdates] at h
    rcases hu : EventsController.update st i p with ⟨st1, res⟩
    rw [hu] at h
    cases res with
    | ok r =>
      have hk := update_keeps_id hf hu
      exact ih st1 r st' hk.1 h
    | error err => simp at h

/-- C1: for every payload passing create-group validation, `create` persists a
new Event record whose fields equal the input payload with `when` parsed from
its ISO date-time string to a date value, and returns that record with the
generated identifier. -/
theorem create_persists_validated_payload (st : EventStore) (p : CreateEventDto)
    (h : validateCreate p = []) :
    EventsController.create st p =
      (⟨st.rows ++ [⟨st.nextId, some p.name, some p.description, some (parseDate p.when),
          some p.address⟩], st.nextId + 1⟩,
       .ok ⟨st.nextId, some p.name, some p.description, some (parseDate p.when),
          some p.address⟩) ∧
    (⟨st.nextId, some p.name, some p.description, some (parseDate p.when),
        some p.address⟩ : EventRow) ∈ (EventsController.create st p).1.rows := by
  unfold EventsController.create
  rw [h]
  simp [saveRow, rowOfDraft]

/-- Witness for C1 at a concrete valid payload and the concrete store. -/
theorem create_persists_validated_payload_witness :
    validateCreate ⟨"Conference", "A nice gathering", "2022-02-02", "Main street 42"⟩ = [] ∧
    (EventsController.create st0 ⟨"Conference", "A nice gathering", "2022-02-02", "Main street 42"⟩ =
      (⟨st0.rows ++ [⟨2, some ("Conference"), some ("A nice gathering"), some (parseDate ("2022-02-02")),
          some ("Main street 42")⟩], 3⟩,
       .ok ⟨2, some ("Conference"), some ("A nice gathering"), some (parseDate ("2022-02-02")),
          some ("Main street 42")⟩) ∧
     (⟨2, some ("Conference"), some ("A nice gathering"), some (parseDate ("2022-02-02")),
        some ("Main street 42")⟩ : EventRow) ∈
       (EventsController.create st0 ⟨"Conference", "A nice gathering", "2022-02-02", "Main street 42"⟩).1.rows) :=
  ⟨by rfl, create_persists_validated_payload st0 _ (by rfl)⟩

/-- C2: for every payload violating at least one create-group rule, `create`
returns a structured 400 error whose message list has exactly one message per
violated rule, and leaves the store unchanged. -/
theorem create_rejects_invalid_payload (st : EventStore) (p : CreateEventDto)
    (h : validateCreate p ≠ []) :
    EventsController.create st p =
      (st, .error ⟨400, (violations ("create") p.get).map fun rv => messageOf rv.1 rv.2,
        "Bad Request"⟩) := by
  obtain ⟨m, ms, hms⟩ := List.exists_cons_of_ne_nil h
  unfold EventsController.create
  rw [hms]
  simp only [badRequestOf]
  rw [← hms]
  rw [show validateCreate p = validateProps ("create") p.get from rfl,
    validateProps_eq_map_violations]

/-- Witness for C2 at the payload with a 1-character name. -/
theorem create_rejects_invalid_payload_witness :
    validateCreate ⟨"a", "hi", "2022-02-02", "22 av"⟩ ≠ [] ∧
    EventsController.create st0 ⟨"a", "hi", "2022-02-02", "22 av"⟩ =
      (st0, .error ⟨400,
        (violations ("create") (CreateEventDto.get ⟨"a", "hi", "2022-02-02", "22 av"⟩)).map
          fun rv => messageOf rv.1 rv.2,
        "Bad Request"⟩) :=
  ⟨by decide, create_rejects_invalid_payload st0 _ (by decide)⟩

/-- C7: the concrete POST payload of the spec example is rejected with a 400
response whose message list contains the configured name-length message. -/
theorem create_short_name_example_rejected (st : EventStore) :
    ∃ msgs, EventsController.create st ⟨"a", "hi", "2022-02-02", "22 av"⟩ =
        (st, .error ⟨400, msgs, "Bad Request"⟩) ∧
      "name must have a length between [5,25]" ∈ msgs :=
  ⟨["name must have a length between [5,25]",
    "description must be longer than or equal to 5 characters"], rfl, by simp⟩

/-- C10: a create payload whose name is 26–255 characters long (other fields
valid) is accepted and persisted, although the configured message claims the
bound is 25. -/
theorem create_accepts_name_over_25 (st : EventStore) (p : CreateEventDto)
    (hn : 26 ≤ p.name.length) (hn2 : p.name.length ≤ 255)
    (hd : 5 ≤ p.description.length ∧ p.description.length ≤ 255)
    (hw : isISO8601String p.when = true)
    (ha : 5 ≤ p.address.length ∧ p.address.length ≤ 255) :
    (EventsController.create st p).2 =
      .ok ⟨st.nextId, some p.name, some p.description, some (parseDate p.when),
        some p.address⟩ ∧
    (⟨st.nextId, some p.name, some p.description, some (parseDate p.when),
        some p.address⟩ : EventRow) ∈ (EventsController.create st p).1.rows := by
  have hv : validateCreate p = [] :=
    (validateCreate_eq_nil_iff p).mpr ⟨⟨by omega, hn2⟩, hd, hw, ha⟩
  unfold EventsController.create
  rw [hv]
  simp [saveRow, rowOfDraft]

/-- Witness for C10 with a 30-character name. -/
theorem create_accepts_name_over_25_witness :
    26 ≤ ("A very long event name, 30 ch." : String).length ∧
    ("A very long event name, 30 ch." : String).length ≤ 255 ∧
    (5 ≤ ("Something" : String).length ∧ ("Something" : String).length ≤ 255) ∧
    isISO8601String ("2022-02-02") = true ∧
    (5 ≤ ("Main street 42" : String).length ∧ ("Main street 42" : String).length ≤ 255) ∧
    ((EventsController.create st0
        ⟨"A very long event name, 30 ch.", "Something", "2022-02-02", "Main street 42"⟩).2 =
      .ok ⟨2, some ("A very long event name, 30 ch."), some ("Something"),
        some (parseDate ("2022-02-02")), some ("Main street 42")⟩ ∧
     (⟨2, some ("A very long event name, 30 ch."), some ("Something"),
        some (parseDate ("2022-02-02")), some ("Main street 42")⟩ : EventRow) ∈
       (EventsController.create st0
         ⟨"A very long event name, 30 ch.", "Something", "2022-02-02", "Main street 42"⟩).1.rows) :=
  ⟨by decide, by decide, by decide, by decide, by decide,
   create_accepts_name_over_25 st0 _ (by decide) (by decide) (by decide) (by decide) (by decide)⟩

/-- C3: updating an existing record with a payload supplying only `name`
changes only `name`: identifier, description, when and address keep their
prior values, both in the returned record and in the persisted one. -/
theorem update_name_only_changes_name (st : EventStore) (i : Nat) (e : EventRow) (n : String)
    (hf : findRow st i = some e) (hn : 5 ≤ n.length ∧ n.length ≤ 255) :
    ∃ st', EventsController.update st i ⟨some n, none, none, none⟩ =
        (st', .ok ⟨i, some n, e.description, e.when, e.address⟩) ∧
      findRow st' i = some ⟨i, some n, e.description, e.when, e.address⟩ := by
  have hv : validateUpdate ⟨some n, none, none, none⟩ = [] := by
    rw [validateUpdate_eq_nil_iff]
    refine ⟨fun x hx => ?_, by simp, by simp, by simp⟩
    obtain rfl := Option.some.inj hx
    exact hn
  have h := update_on_found st i ⟨some n, none, none, none⟩ e hv hf
  exact ⟨_, h.1, by rw [h.1] at h; exact h.2⟩

/-- Witness for C3: renaming the concrete row leaves its other fields. -/
theorem update_name_only_changes_name_witness :
    findRow st0 1 = some row0 ∧ (5 ≤ ("NewEventName" : String).length ∧
      ("NewEventName" : String).length ≤ 255) ∧
    (∃ st', EventsController.update st0 1 ⟨some ("NewEventName"), none, none, none⟩ =
        (st', .ok ⟨1, some ("NewEventName"), row0.description, row0.when, row0.address⟩) ∧
      findRow st' 1 = some ⟨1, some ("NewEventName"), row0.description, row0.when, row0.address⟩) :=
  ⟨by rfl, by decide, update_name_only_changes_name st0 1 row0 _ (by rfl) (by decide)⟩

/-- C4: the identifier assigned at creation never changes: any sequence of
partial updates leaves a record with the same identifier in place, while a
single valid partial update can change every non-identifier field. -/
theorem event_id_immutable_fields_updatable (st : EventStore) (i : Nat) (e : EventRow)
    (hf : findRow st i = some e) :
    (∀ ps st', applyUpdates st i ps = some st' →
        ∃ e', findRow st' i = some e' ∧ e'.id = e.id) ∧
    (∀ n d w a, validateUpdate ⟨some n, some d, some w, some a⟩ = [] →
        (EventsController.update st i ⟨some n, some d, some w, some a⟩).2 =
          .ok ⟨e.id, some n, some d, some (parseDate w), some a⟩) := by
  have hei : e.id = i := findRow_id_eq hf
  constructor
  · intro ps st' h
    obtain ⟨e', h1, h2⟩ := applyUpdates_keeps_id i ps st e st' hf h
    exact ⟨e', h1, by rw [h2, hei]⟩
  · intro n d w a hv
    have hw : isISO8601String w = true :=
      ((validateUpdate_eq_nil_iff _).mp hv).2.2.1 w rfl
    have hne : w ≠ "" := isISO8601String_ne_empty hw
    have h := update_on_found st i ⟨some n, some d, some w, some a⟩ e hv hf
    rw [h.1]
    simp [rowOfDraft, EventsController.updatedEvent, whenTruthy, hne, hei]

/-- Witness for C4 at the concrete one-row store. -/
theorem event_id_immutable_fields_updatable_witness :
    findRow st0 1 = some row0 ∧
    ((∀ ps st', applyUpdates st0 1 ps = some st' →
        ∃ e', findRow st' 1 = some e' ∧ e'.id = row0.id) ∧
     (∀ n d w a, validateUpdate ⟨some n, some d, some w, some a⟩ = [] →
        (EventsController.update st0 1 ⟨some n, some d, some w, some a⟩).2 =
          .ok ⟨row0.id, some n, some d, some (parseDate w), some a⟩)) :=
  ⟨by rfl, event_id_immutable_fields_updatable st0 1 row0 (by rfl)⟩

/-- C5: deleting an existing record returns no content (HTTP 204 body) and a
subsequent fetch of the same id yields no record. -/
theorem remove_then_findOne_none (st : EventStore) (i : Nat) (e : EventRow)
    (hf : findRow st i = some e) :
    EventsController.remove st i = (removeRow st e, .ok ()) ∧
    EventsController.findOne (EventsController.remove st i).1 i = none := by
  have h1 : EventsController.remove st i = (removeRow st e, .ok ()) := by
    unfold EventsController.remove
    rw [hf]
  refine ⟨h1, ?_⟩
  rw [h1]
  unfold EventsController.findOne findRow removeRow
  rw [List.find?_eq_none]
  intro x hx
  have hne := (List.mem_filter.mp hx).2
  have hei : e.id = i := findRow_id_eq hf
  simp only [Bool.not_eq_true'] at hne
  rw [← hei]
  simp [hne]

/-- Witness for C5 at the concrete one-row store. -/
theorem remove_then_findOne_none_witness :
    findRow st0 1 = some row0 ∧
    (EventsController.remove st0 1 = (removeRow st0 row0, .ok ()) ∧
     EventsController.findOne (EventsController.remove st0 1).1 1 = none) :=
  ⟨by rfl, remove_then_findOne_none st0 1 row0 (by rfl)⟩

/-- C6: with the other fields valid, a create payload passes validation
exactly when its address is 5–255 characters long, while an update payload
supplying only the address passes exactly when it is 10–20 characters long:
the two validation groups put different bounds on the same field. -/
theorem address_bounds_by_group (s n d w : String)
    (hn : 5 ≤ n.length ∧ n.length ≤ 255) (hd : 5 ≤ d.length ∧ d.length ≤ 255)
    (hw : isISO8601String w = true) :
    (validateCreate ⟨n, d, w, s⟩ = [] ↔ 5 ≤ s.length ∧ s.length ≤ 255) ∧
    (validateUpdate ⟨none, none, none, some s⟩ = [] ↔ 10 ≤ s.length ∧ s.length ≤ 20) := by
  constructor
  · rw [validateCreate_eq_nil_iff]
    simp [hn, hd, hw]
  · rw [validateUpdate_eq_nil_iff]
    simp

/-- Witness for C6 at concrete field values. -/
theorem address_bounds_by_group_witness :
    (5 ≤ ("Valid name" : String).length ∧ ("Valid name" : String).length ≤ 255) ∧
    (5 ≤ ("Valid description" : String).length ∧
      ("Valid description" : String).length ≤ 255) ∧
    isISO8601String ("2022-02-02") = true ∧
    ((validateCreate ⟨"Valid name", "Valid description", "2022-02-02", "Address 123456"⟩ = [] ↔
        5 ≤ ("Address 123456" : String).length ∧ ("Address 123456" : String).length ≤ 255) ∧
     (validateUpdate ⟨none, none, none, some ("Address 123456")⟩ = [] ↔
        10 ≤ ("Address 123456" : String).length ∧ ("Address 123456" : String).length ≤ 20)) :=
  ⟨by decide, by decide, by decide,
   address_bounds_by_group ("Address 123456") "Valid name" "Valid description" "2022-02-02"
     (by decide) (by decide) (by decide)⟩

/-- C8: `findOne` returns a total lookup result: the matching record when the
store holds one, `null` when it does not, and no not-found error in either
case (its result type has no error outcome). -/
theorem findOne_total_lookup (st : EventStore) (i : Nat) :
    (∀ e, EventsController.findOne st i = some e → e.id = i ∧ e ∈ st.rows) ∧
    ((∀ e ∈ st.rows, e.id ≠ i) → EventsController.findOne st i = none) ∧
    ((∃ e ∈ st.rows, e.id = i) →
      ∃ e, EventsController.findOne st i = some e ∧ e.id = i ∧ e ∈ st.rows) := by
  refine ⟨fun e h => ⟨findRow_id_eq h, findRow_mem h⟩, fun h => ?_, fun ⟨e, he, hei⟩ => ?_⟩
  · unfold EventsController.findOne findRow
    rw [List.find?_eq_none]
    intro x hx
    simp [h x hx]
  · have hsome : (st.rows.find? fun r => r.id == i).isSome := by
      rw [List.find?_isSome]
      exact ⟨e, he, by simp [hei]⟩
    obtain ⟨e', he'⟩ := Option.isSome_iff_exists.mp hsome
    exact ⟨e', he', findRow_id_eq he', findRow_mem he'⟩

/-- Witness for C8: the concrete store answers id 1 with its row and id 2
with none. -/
theorem findOne_total_lookup_witness :
    (∃ e ∈ st0.rows, e.id = 1) ∧ (∀ e ∈ st0.rows, e.id ≠ 2) ∧
    (∃ e, EventsController.findOne st0 1 = some e ∧ e.id = 1 ∧ e ∈ st0.rows) ∧
    EventsController.findOne st0 2 = none :=
  ⟨by decide, by decide,
   (findOne_total_lookup st0 1).2.2 (by decide),
   (findOne_total_lookup st0 2).2.1 (by decide)⟩

/-- C9 as stated is false: the validated payload supplying only `name`, sent
to an id with no record, makes `update` fault with a `TypeError` (reading
`when` of the null lookup result) instead of succeeding. -/
theorem update_missing_id_claim_cex :
    validateUpdate ⟨some ("Valid Name"), none, none, none⟩ = [] ∧
    findRow ⟨[], 1⟩ 1 = none ∧
    EventsController.update ⟨[], 1⟩ 1 ⟨some ("Valid Name"), none, none, none⟩ =
      (⟨[], 1⟩, .error .nullDeref) :=
  ⟨rfl, rfl, rfl⟩

/-- C9 amended: when the record is missing, a validated update payload that
does supply `when` is persisted as a brand-new record built from the
fields supplied by the payload alone, under a newly generated identifier, and
returned; a validated payload without `when` makes the operation fault
instead. -/
theorem update_missing_id_inserts_when_supplied (st : EventStore) (i : Nat)
    (p : UpdateEventDto) (w : String) (hv : validateUpdate p = [])
    (hf : findRow st i = none) (hw : p.when = some w) :
    EventsController.update st i p =
      (⟨st.rows ++ [⟨st.nextId, p.name, p.description, some (parseDate w), p.address⟩],
         st.nextId + 1⟩,
       .ok ⟨st.nextId, p.name, p.description, some (parseDate w), p.address⟩) := by
  have hiso : isISO8601String w = true :=
    ((validateUpdate_eq_nil_iff p).mp hv).2.2.1 w hw
  have hne : w ≠ "" := isISO8601String_ne_empty hiso
  unfold EventsController.update
  rw [hv, hf, hw]
  simp [whenTruthy, hne, saveRow, rowOfDraft]

/-- Witness for the amended C9: a date-only payload inserts a fresh row. -/
theorem update_missing_id_inserts_when_supplied_witness :
    validateUpdate ⟨none, none, some ("2022-02-02"), none⟩ = [] ∧
    findRow st0 5 = none ∧
    (⟨none, none, some ("2022-02-02"), none⟩ : UpdateEventDto).when = some ("2022-02-02") ∧
    EventsController.update st0 5 ⟨none, none, some ("2022-02-02"), none⟩ =
      (⟨st0.rows ++ [⟨2, none, none, some (parseDate ("2022-02-02")), none⟩], 3⟩,
       .ok ⟨2, none, none, some (parseDate ("2022-02-02")), none⟩) :=
  ⟨by rfl, by rfl, by rfl,
   update_missing_id_inserts_when_supplied st0 5 _ ("2022-02-02") (by rfl) (by rfl) (by rfl)⟩
